import Mathlib

/-!
Verification development for the road cross-section visualizer
(`latest_road_visualizer_code.py`).

The core logic of the program — record parsing, layer lookup, linear
interpolation of elevation (`find_y_at_x`), slope classification, and the
annotation builder inside `load_road_section` — is shallowly embedded below.
Python floats are modelled exactly by `ℚ`; Python strings by `List Char`
(`Chars`); Python exceptions by `Except Chars`, where the error value is a
short tag naming the kind of exception (`IndexError`, `TypeError`).  The
Python builtin `float` is modelled on decimal literals (optional sign,
digits, optional fractional part, optional exponent, surrounding
whitespace), which is the fragment exercised by `.road` files.
-/

attribute [local semireducible] Rat.mul Rat.add Rat.sub Rat.inv

deriving instance DecidableEq for Except

abbrev Chars := List Char

/-- Python whitespace characters recognized by `str.strip`. -/
def isPySpace (c : Char) : Bool :=
  (c = ' ') || (c = '\t') || (c = '\n') || (c = '\r') || (c = '\x0b') || (c = '\x0c')

/-- Model of Python `str.strip()`: drop whitespace from both ends. -/
def pyStrip (s : Chars) : Chars :=
  ((s.dropWhile isPySpace).reverse.dropWhile isPySpace).reverse

/-- Model of Python `str.split(sep)` (single-character separator, no maxsplit). -/
def splitChar (sep : Char) : Chars → List Chars
  | [] => [[]]
  | c :: cs =>
    if c = sep then [] :: splitChar sep cs
    else
      match splitChar sep cs with
      | [] => [[c]]
      | p :: ps => (c :: p) :: ps

/-- Model of Python `str.split(sep, 1)`: the part before the first separator,
and `some` remainder after it when the separator occurs. -/
def splitFirst (sep : Char) : Chars → Chars × Option Chars
  | [] => ([], none)
  | c :: cs =>
    if c = sep then ([], some cs)
    else
      let r := splitFirst sep cs
      (c :: r.1, r.2)

/-- Model of Python `str.startswith`: first argument is the pattern. -/
def startsWithC : Chars → Chars → Bool
  | [], _ => true
  | _ :: _, [] => false
  | p :: ps, c :: cs => p = c && startsWithC ps cs

/-- Decimal digit test, as used by the model of `float`. -/
def isPyDigit (c : Char) : Bool := ('0' ≤ c) && (c ≤ '9')

/-- Value of a digit string, most significant first. -/
def natOfDigits (ds : Chars) : Nat :=
  ds.foldl (fun a c => 10 * a + (c.toNat - ('0').toNat)) 0

/-- Mantissa of a decimal literal: integer part, optional point and
fractional part.  Fails when no digit is present, as Python `float` does. -/
def parseMantissa (s : Chars) : Option (ℚ × Chars) :=
  let ip := s.takeWhile isPyDigit
  let s1 := s.dropWhile isPyDigit
  match s1 with
  | '.' :: t =>
    let fp := t.takeWhile isPyDigit
    let s2 := t.dropWhile isPyDigit
    if ip = [] && fp = [] then none
    else some ((natOfDigits ip : ℚ) + (natOfDigits fp : ℚ) / (10 : ℚ) ^ fp.length, s2)
  | _ =>
    if ip = [] then none
    else some ((natOfDigits ip : ℚ), s1)

/-- Signed digit string after an exponent marker; fails when no digit follows. -/
def parseExpTail (t : Chars) : Option (ℤ × Chars) :=
  let sg : ℤ × Chars :=
    match t with
    | '+' :: u => (1, u)
    | '-' :: u => (-1, u)
    | _ => (1, t)
  let ds := sg.2.takeWhile isPyDigit
  if ds = [] then none else some (sg.1 * (natOfDigits ds : ℤ), sg.2.dropWhile isPyDigit)

/-- Optional exponent part of a decimal literal.  When an `e` marker is
present it must be followed by digits, otherwise the whole parse fails. -/
def parseExponent : Chars → Option (ℤ × Chars)
  | 'e' :: t => parseExpTail t
  | 'E' :: t => parseExpTail t
  | s => some (0, s)

/-- Model of Python `float(str)` on decimal literals: strips whitespace,
parses an optional sign, a mantissa and an optional exponent, and requires
the whole string to be consumed. -/
def parseFloat? (s0 : Chars) : Option ℚ :=
  let s := pyStrip s0
  let sg : ℚ × Chars :=
    match s with
    | '+' :: t => (1, t)
    | '-' :: t => (-1, t)
    | _ => (1, s)
  match parseMantissa sg.2 with
  | none => none
  | some (m, s2) =>
    match parseExponent s2 with
    | none => none
    | some (e, s3) => if s3 = [] then some (sg.1 * m * (10 : ℚ) ^ e) else none

/-- One parsed layer record: `type`, `color` and the flattened coordinate
list, as stored in `layers_data` by `load_road_section`. -/
structure Layer where
  type : Chars
  color : Chars
  data : List ℚ
deriving DecidableEq, Repr

/-- Embedding of `find_layer`: first layer whose `type` matches, else `none`. -/
def find_layer : List Layer → Chars → Option Layer
  | [], _ => none
  | l :: ls, name => if l.type = name then some l else find_layer ls name

/-- Embedding of `find_y_at_x`.  The Python loop walks the flattened
coordinate list two entries at a time, reading four entries per step; on a
list of odd length the final step reads one entry past the end, which
raises `IndexError` — modelled by the `.error` result.  Lists with fewer
than four entries that are reached without a match yield `None`
(`.ok none`), matching the empty `range`. -/
def find_y_at_x (x_offset : ℚ) : List ℚ → Except Chars (Option ℚ)
  | a :: b :: c :: d :: rest =>
    let x1 := if a > c then c else a
    let y1 := if a > c then d else b
    let x2 := if a > c then a else c
    let y2 := if a > c then b else d
    if x1 ≤ x_offset ∧ x_offset ≤ x2 then
      if x2 - x1 = 0 then .ok (some (min y1 y2))
      else .ok (some (y1 + (x_offset - x1) / (x2 - x1) * (y2 - y1)))
    else find_y_at_x x_offset (c :: d :: rest)
  | [_, _, _] => .error (("IndexError").data)
  | _ => .ok none

/-- The per-segment computation of `find_y_at_x`: normalize the endpoints so
the first has the smaller offset, then either report the minimum elevation
(vertical segment) or interpolate; `none` when the segment does not cover
the queried offset. -/
def segEval (p q : ℚ × ℚ) (x : ℚ) : Option ℚ :=
  let x1 := if p.1 > q.1 then q.1 else p.1
  let y1 := if p.1 > q.1 then q.2 else p.2
  let x2 := if p.1 > q.1 then p.1 else q.1
  let y2 := if p.1 > q.1 then p.2 else q.2
  if x1 ≤ x ∧ x ≤ x2 then
    some (if x2 - x1 = 0 then min y1 y2 else y1 + (x - x1) / (x2 - x1) * (y2 - y1))
  else none

/-- Flatten a list of coordinate pairs into the coordinate list stored in a
layer record. -/
def flat : List (ℚ × ℚ) → List ℚ
  | [] => []
  | p :: ps => p.1 :: p.2 :: flat ps

/-- The `j`-th segment of a boundary: its `j`-th and `(j+1)`-th points. -/
def segAt (ps : List (ℚ × ℚ)) (j : Nat) : Option ((ℚ × ℚ) × (ℚ × ℚ)) :=
  match ps.drop j with
  | p :: q :: _ => some (p, q)
  | _ => none

/-- A segment covers an offset when the offset lies in its (closed,
normalized) x-range. -/
def covers (p q : ℚ × ℚ) (x : ℚ) : Prop :=
  min p.1 q.1 ≤ x ∧ x ≤ max p.1 q.1

instance (p q : ℚ × ℚ) (x : ℚ) : Decidable (covers p q x) :=
  inferInstanceAs (Decidable (_ ∧ _))

/-- Round half to even, as Python uses when formatting. -/
def roundHE (q : ℚ) : ℤ :=
  let f := ⌊q⌋
  if q - f < 1 / 2 then f
  else if q - f > 1 / 2 then f + 1
  else if f % 2 = 0 then f else f + 1

/-- Decimal digits of a natural number, most significant first. -/
def natChars (n : Nat) : Chars := Nat.toDigits 10 n

/-- Model of Python one-decimal formatting, as in the slope ratio label. -/
def fmtQ1 (q : ℚ) : Chars :=
  let m := roundHE (10 * q)
  let s : Chars := if m < 0 then ['-'] else []
  let a := m.natAbs
  s ++ natChars (a / 10) ++ ('.' :: natChars (a % 10))

/-- Model of Python two-decimal formatting, as in the elevation and width labels. -/
def fmtQ2 (q : ℚ) : Chars :=
  let m := roundHE (100 * q)
  let s : Chars := if m < 0 then ['-'] else []
  let a := m.natAbs
  let frac := if a % 100 < 10 then '0' :: natChars (a % 100) else natChars (a % 100)
  s ++ natChars (a / 100) ++ ('.' :: frac)

/-- Ratio text computed by `draw_slope_label` for points `p1` (road side) and
`p2` (terrain side). -/
def slope_text (p1 p2 : ℚ × ℚ) : Chars :=
  let run := |p2.1 - p1.1|
  let rise := |p2.2 - p1.2|
  if rise = 0 then ("Level").data
  else ("1 : ").data ++ fmtQ1 (run / rise)

/-- Zone text computed by `draw_slope_label`. -/
def zone_text (p1 p2 : ℚ × ℚ) : Chars :=
  if p1.2 > p2.2 then ("FILL\n(Embankment)").data else ("CUT\n(Cutting)").data

/-- Parser state of the line loop in `load_road_section`: the chainage
label, the accumulated layers, and the line numbers of the skipped lines
that produced a printed diagnostic. -/
structure ParseState where
  chainage : Chars
  layers : List Layer
  diags : List Nat
deriving DecidableEq, Repr

/-- Initial parser state: `global_chainage = "CHAINAGE: Unknown"`, no layers. -/
def initState : ParseState := ⟨("CHAINAGE: Unknown").data, [], []⟩

/-- Remainder of a line after its first colon, as in `line.split(':', 1)[1]`
(the caller guarantees a colon is present). -/
def afterFirstColon (l : Chars) : Chars :=
  match splitFirst ':' l with
  | (_, some rest) => rest
  | (_, none) => []

/-- One iteration of the line loop of `load_road_section`: strip the line,
skip blanks, handle the chainage directive, skip comments, skip data lines
with fewer than 8 fields silently, and either append a layer or record a
diagnostic for the line depending on whether every coordinate field parses. -/
def processLine (st : ParseState) (n : Nat) (raw : Chars) : ParseState :=
  let line := pyStrip raw
  if line = [] then st
  else if startsWithC (("# CHAINAGE:").data) line then
    { st with chainage := pyStrip (afterFirstColon line) }
  else if startsWithC (("#").data) line then st
  else
    match splitChar ',' line with
    | t :: c :: coords =>
      if coords.length < 6 then st
      else
        match coords.mapM parseFloat? with
        | some data => { st with layers := st.layers ++ [⟨t, c, data⟩] }
        | none => { st with diags := st.diags ++ [n] }
    | _ => st

/-- The line loop, starting at line number `n`. -/
def parseFrom : Nat → ParseState → List Chars → ParseState
  | _, st, [] => st
  | n, st, l :: ls => parseFrom (n + 1) (processLine st n l) ls

/-- Parse a whole file given as its list of lines (`enumerate(f, 1)` numbers
lines from 1). -/
def parseLines (lines : List Chars) : ParseState := parseFrom 1 initState lines

/-- Annotations produced by `load_road_section`, in world coordinates:
point labels with a leader line (`draw_dim_label`), horizontal dimension
lines (`draw_horizontal_dim`), and slope labels (`draw_slope_label`). -/
inductive Ann where
  | pointLabel (offset elevation : ℚ) (text : Chars) (leaderLen : ℚ) (anchor : Chars)
  | dimLine (elevation offsetStart offsetEnd : ℚ) (text : Chars)
  | slopeLabel (pA pB : ℚ × ℚ) (ratioText zoneText : Chars)
deriving DecidableEq, Repr

/-- Text of the centerline label in the simple cross-section. -/
def centerlineText (cl : ℚ) : Chars :=
  ("Centerline\n(Elev: ").data ++ fmtQ2 cl ++ ("m)").data

/-- Text of an edge-of-pavement label. -/
def epText (o e : ℚ) : Chars :=
  ("E.P.\n(").data ++ fmtQ2 o ++ (", ").data ++ fmtQ2 e ++ (")").data

/-- Text of a width dimension line. -/
def widthText (w : ℚ) : Chars :=
  ("Width: ").data ++ fmtQ2 w ++ ("m").data

/-- Annotations of the simple cross-section branch (`if asphalt:`): the
centerline label when interpolation at offset 0 succeeds, two
edge-of-pavement labels from the first two boundary points, and the width
dimension at `cl_elev + 1.0`.  When `cl_elev` is `None`, the code still
evaluates `cl_elev + 1.0`, raising `TypeError`; when the boundary has fewer
than four coordinates, indexing raises `IndexError`. -/
def simplePav (a : Layer) : Except Chars (List Ann) :=
  match find_y_at_x 0 a.data with
  | .error e => .error e
  | .ok clOpt =>
    match a.data with
    | x0 :: y0 :: x1 :: y1 :: _ =>
      let clAnns : List Ann :=
        match clOpt with
        | some cl => [.pointLabel 0 cl (centerlineText cl) 30 (("s").data)]
        | none => []
      let eps : List Ann :=
        [.pointLabel x0 y0 (epText x0 y0) 30 (("s").data),
         .pointLabel x1 y1 (epText x1 y1) 30 (("s").data)]
      match clOpt with
      | some cl => .ok (clAnns ++ eps ++ [.dimLine (cl + 1) x0 x1 (widthText (x1 - x0))])
      | none => .error (("TypeError").data)
    | _ => .error (("IndexError").data)

/-- Annotations of the divided cross-section branch
(`elif asphalt_l and asphalt_r:`). -/
def dividedPav (l r : Layer) : Except Chars (List Ann) :=
  match l.data with
  | li0 :: li1 :: li2 :: li3 :: _ =>
    match r.data with
    | ri0 :: ri1 :: ri2 :: ri3 :: _ =>
      .ok ([.pointLabel 0 0 (("Centerline\n(Median)").data) 30 (("n").data),
            .pointLabel li0 li1 (epText li0 li1) 30 (("s").data),
            .pointLabel li2 li3 (epText li2 li3) 30 (("s").data),
            .dimLine (li1 + 1 / 2) li0 li2 (widthText |li2 - li0|),
            .pointLabel ri0 ri1 (epText ri0 ri1) 30 (("s").data),
            .pointLabel ri2 ri3 (epText ri2 ri3) 30 (("s").data),
            .dimLine (ri1 + 1 / 2) ri0 ri2 (widthText |ri2 - ri0|)])
    | _ => .error (("IndexError").data)
  | _ => .error (("IndexError").data)

/-- The median label (`if median:`), placed half a meter right of the first
boundary point, with a shorter leader. -/
def medianPart : Option Layer → Except Chars (List Ann)
  | none => .ok []
  | some m =>
    match m.data with
    | a :: b :: _ =>
      .ok [.pointLabel (a + 1 / 2) b (("Median\nBarrier").data) 15 (("s").data)]
    | _ => .error (("IndexError").data)

/-- The two slope labels (`if subbase and terrain:`), read off fixed indices
of the subbase boundary: points 1→0 on the left and points (n-2)→(n-1) on
the right, road side first. -/
def slopePart : Option Layer → Option Layer → Except Chars (List Ann)
  | some s, some _ =>
    (match s.data, s.data.reverse with
     | a :: b :: c :: d :: _, e1 :: e2 :: e3 :: e4 :: _ =>
       .ok [.slopeLabel (c, d) (a, b) (slope_text (c, d) (a, b)) (zone_text (c, d) (a, b)),
            .slopeLabel (e4, e3) (e2, e1) (slope_text (e4, e3) (e2, e1))
              (zone_text (e4, e3) (e2, e1))]
     | _, _ => .error (("IndexError").data))
  | _, _ => .ok []

/-- The annotation part of `load_road_section` after the five layer lookups:
the pavement branch (simple before divided, nothing when neither applies),
then the median label, then the slope labels, with exceptions propagating
to the handler of the whole load. -/
def annsFrom (a l r s m t : Option Layer) : Except Chars (List Ann) :=
  let pav : Except Chars (List Ann) :=
    match a with
    | some x => simplePav x
    | none =>
      match l, r with
      | some lv, some rv => dividedPav lv rv
      | _, _ => .ok []
  match pav with
  | .error e => .error e
  | .ok p =>
    match medianPart m with
    | .error e => .error e
    | .ok md =>
      match slopePart s t with
      | .error e => .error e
      | .ok sl => .ok (p ++ md ++ sl)

/-- The annotation builder applied to a parsed layer list, performing the
five `find_layer` lookups of `load_road_section`. -/
def buildAnns (layers : List Layer) : Except Chars (List Ann) :=
  annsFrom (find_layer layers (("ASPHALT").data))
    (find_layer layers (("ASPHALT_L").data))
    (find_layer layers (("ASPHALT_R").data))
    (find_layer layers (("SUBBASE").data))
    (find_layer layers (("MEDIAN").data))
    (find_layer layers (("TERRAIN").data))

/-- One step of `find_y_at_x` on a flattened boundary: the head segment is
evaluated first, and the scan continues from the second point otherwise. -/
theorem find_y_step (x : ℚ) (p q : ℚ × ℚ) (rest : List (ℚ × ℚ)) :
    find_y_at_x x (flat (p :: q :: rest)) =
      match segEval p q x with
      | some v => .ok (some v)
      | none => find_y_at_x x (flat (q :: rest)) := by
  rcases p with ⟨a, b⟩
  rcases q with ⟨c, d⟩
  show find_y_at_x x (a :: b :: c :: d :: flat rest) = _
  rw [find_y_at_x]
  simp only [segEval]
  by_cases hcov : (if a > c then c else a) ≤ x ∧ x ≤ (if a > c then a else c)
  · rw [if_pos hcov, if_pos hcov]
    by_cases hv : (if a > c then a else c) - (if a > c then c else a) = 0
    · rw [if_pos hv, if_pos hv]
    · rw [if_neg hv, if_neg hv]
  · rw [if_neg hcov, if_neg hcov]
    rfl

/-- `segEval` fails exactly when the segment does not cover the offset. -/
theorem segEval_eq_none_iff (p q : ℚ × ℚ) (x : ℚ) :
    segEval p q x = none ↔ ¬ covers p q x := by
  rcases p with ⟨a, b⟩
  rcases q with ⟨c, d⟩
  simp only [segEval, covers]
  by_cases h : a > c
  · have hmin : a ⊓ c = c := by rw [min_def, if_neg (not_le.mpr h)]
    have hmax : a ⊔ c = a := by rw [max_def, if_neg (not_le.mpr h)]
    rw [if_pos h, if_pos h, if_pos h, if_pos h, hmin, hmax]
    split_ifs with hc <;> simp [hc]
  · push_neg at h
    have hmin : a ⊓ c = a := by rw [min_def, if_pos h]
    have hmax : a ⊔ c = c := by rw [max_def, if_pos h]
    rw [if_neg (not_lt.mpr h), if_neg (not_lt.mpr h), if_neg (not_lt.mpr h),
      if_neg (not_lt.mpr h), hmin, hmax]
    split_ifs with hc <;> simp [hc]

/-- If the segments before position `j` do not match and segment `j`
evaluates to `v`, the scan returns `v`. -/
theorem find_y_first (x : ℚ) :
    ∀ (ps : List (ℚ × ℚ)) (j : Nat) (p q : ℚ × ℚ) (v : ℚ),
      segAt ps j = some (p, q) →
      (∀ i, i < j → ∀ a b, segAt ps i = some (a, b) → segEval a b x = none) →
      segEval p q x = some v →
      find_y_at_x x (flat ps) = .ok (some v) := by
  intro ps
  induction ps with
  | nil => intro j p q v hseg; simp [segAt] at hseg
  | cons r ps ih =>
    intro j p q v hseg hfirst heval
    cases j with
    | zero =>
      cases ps with
      | nil => simp [segAt] at hseg
      | cons q2 tail =>
        simp only [segAt, List.drop] at hseg
        obtain ⟨hp, hq⟩ := Prod.mk.inj (Option.some.inj hseg)
        rw [find_y_step, hp, hq, heval]
    | succ j =>
      cases ps with
      | nil => simp [segAt] at hseg
      | cons q2 tail =>
        have h0 : segEval r q2 x = none := by
          apply hfirst 0 (Nat.succ_pos j) r q2
          simp [segAt]
        rw [find_y_step, h0]
        apply ih j p q v
        · simpa [segAt] using hseg
        · intro i hi a b hab
          apply hfirst (i + 1) (Nat.succ_lt_succ hi) a b
          simpa [segAt] using hab
        · exact heval

/-- When no segment of the boundary covers the offset, the scan returns
`None`. -/
theorem find_y_none (x : ℚ) :
    ∀ ps : List (ℚ × ℚ),
      (∀ i a b, segAt ps i = some (a, b) → segEval a b x = none) →
      find_y_at_x x (flat ps) = .ok none := by
  intro ps
  induction ps with
  | nil => intro; rfl
  | cons r ps ih =>
    intro h
    cases ps with
    | nil => rfl
    | cons q tail =>
      rw [find_y_step, h 0 r q (by simp [segAt])]
      apply ih
      intro i a b hab
      apply h (i + 1) a b
      simpa [segAt] using hab

/-- Strictly inside a segment's x-range, `segEval` is the linear
interpolation through the two stored endpoints, written with the stored
(unnormalized) endpoint order. -/
theorem segEval_strict (x1 y1 x2 y2 x : ℚ) (h1 : min x1 x2 < x) (h2 : x < max x1 x2) :
    segEval (x1, y1) (x2, y2) x = some (y1 + (x - x1) / (x2 - x1) * (y2 - y1)) := by
  have hne : x1 ≠ x2 := by
    intro he
    rw [he, min_self] at h1
    rw [he, max_self] at h2
    exact absurd (h1.trans h2) (lt_irrefl x2)
  simp only [segEval]
  by_cases h : x1 > x2
  · have hmin : x1 ⊓ x2 = x2 := by rw [min_def, if_neg (not_le.mpr h)]
    have hmax : x1 ⊔ x2 = x1 := by rw [max_def, if_neg (not_le.mpr h)]
    rw [hmin] at h1
    rw [hmax] at h2
    rw [if_pos h, if_pos h, if_pos h, if_pos h, if_pos ⟨h1.le, h2.le⟩,
      if_neg (sub_ne_zero.mpr (ne_of_gt h))]
    have hs1 : x1 - x2 ≠ 0 := sub_ne_zero.mpr (ne_of_gt h)
    have hs2 : x2 - x1 ≠ 0 := sub_ne_zero.mpr (Ne.symm (ne_of_gt h))
    congr 1
    field_simp
    ring
  · push_neg at h
    have hlt : x1 < x2 := lt_of_le_of_ne h hne
    have hmin : x1 ⊓ x2 = x1 := by rw [min_def, if_pos h]
    have hmax : x1 ⊔ x2 = x2 := by rw [max_def, if_pos h]
    rw [hmin] at h1
    rw [hmax] at h2
    rw [if_neg (not_lt.mpr h), if_neg (not_lt.mpr h), if_neg (not_lt.mpr h),
      if_neg (not_lt.mpr h), if_pos ⟨h1.le, h2.le⟩, if_neg (sub_ne_zero.mpr (Ne.symm hne))]

/-- C1: on a boundary given as coordinate pairs, an offset strictly inside
the x-range of segment `j` and covered by no other segment is answered by
linear interpolation on segment `j`, written with the stored endpoint
order (hence independent of whether the endpoints were stored low-to-high
or high-to-low); when several segments cover the offset the first covering
segment in scan order decides the result; and when no segment covers the
offset the result is `None`. -/
theorem C1_elevationAt (ps : List (ℚ × ℚ)) (off : ℚ) :
    (∀ j x1 y1 x2 y2, segAt ps j = some ((x1, y1), (x2, y2)) →
        min x1 x2 < off → off < max x1 x2 →
        (∀ i, i ≠ j → ∀ p q, segAt ps i = some (p, q) → ¬ covers p q off) →
        find_y_at_x off (flat ps) = .ok (some (y1 + (off - x1) / (x2 - x1) * (y2 - y1))))
  ∧ (∀ j p q, segAt ps j = some (p, q) → covers p q off →
        (∀ i, i < j → ∀ a b, segAt ps i = some (a, b) → ¬ covers a b off) →
        find_y_at_x off (flat ps) = .ok (segEval p q off))
  ∧ ((∀ i p q, segAt ps i = some (p, q) → ¬ covers p q off) →
        find_y_at_x off (flat ps) = .ok none) := by
  refine ⟨?_, ?_, ?_⟩
  · intro j x1 y1 x2 y2 hseg hlo hhi hothers
    apply find_y_first off ps j (x1, y1) (x2, y2)
    · exact hseg
    · intro i hi a b hab
      exact (segEval_eq_none_iff a b off).mpr (hothers i (Nat.ne_of_lt hi) a b hab)
    · exact segEval_strict x1 y1 x2 y2 off hlo hhi
  · intro j p q hseg hcov hfirst
    have hne : segEval p q off ≠ none := fun hn =>
      (segEval_eq_none_iff p q off).mp hn hcov
    obtain ⟨v, hv⟩ := Option.ne_none_iff_exists'.mp hne
    rw [hv]
    apply find_y_first off ps j p q v hseg
    · intro i hi a b hab
      exact (segEval_eq_none_iff a b off).mpr (hfirst i hi a b hab)
    · exact hv
  · intro hnone
    apply find_y_none
    intro i a b hab
    exact (segEval_eq_none_iff a b off).mpr (hnone i a b hab)

/-- C1 witness: on the boundary `[(0,0),(2,2)]`, offset `1` lies strictly
inside the single segment and interpolation yields elevation `1`. -/
theorem C1_elevationAt_witness :
    find_y_at_x 1 (flat [(0, 0), (2, 2)]) = .ok (some 1) := by
  have h := (C1_elevationAt [(0, 0), (2, 2)] 1).1 0 0 0 2 2 (by decide) (by decide) (by decide)
    (by
      intro i hi p q hseg
      match i with
      | 0 => exact absurd rfl hi
      | 1 => simp [segAt] at hseg
      | (k + 2) => simp [segAt, List.drop] at hseg)
  norm_num at h
  exact h

/-- C9: when the first covering segment is vertical at the queried offset,
the scan returns the lower of its two elevations; and whenever a
non-vertical segment covers the offset, its result is the interpolation
formula, whose divisor (the segment's x-extent) is nonzero — the vertical
case never reaches the division. -/
theorem C9_vertical_min (ps : List (ℚ × ℚ)) (off : ℚ) :
    (∀ j x1 y1 x2 y2, segAt ps j = some ((x1, y1), (x2, y2)) →
        x2 - x1 = 0 → covers (x1, y1) (x2, y2) off →
        (∀ i, i < j → ∀ a b, segAt ps i = some (a, b) → ¬ covers a b off) →
        find_y_at_x off (flat ps) = .ok (some (min y1 y2)))
  ∧ (∀ x1 y1 y2, x1 ≤ off → off ≤ x1 →
        segEval (x1, y1) (x1, y2) off = some (min y1 y2))
  ∧ (∀ p q, p.1 ≠ q.1 → covers p q off →
        max p.1 q.1 - min p.1 q.1 ≠ 0 ∧
        segEval p q off = some ((if p.1 > q.1 then q.2 else p.2) +
          (off - min p.1 q.1) / (max p.1 q.1 - min p.1 q.1) *
            ((if p.1 > q.1 then p.2 else q.2) - (if p.1 > q.1 then q.2 else p.2)))) := by
  have hvert : ∀ x1 y1 y2, x1 ≤ off → off ≤ x1 →
      segEval (x1, y1) (x1, y2) off = some (min y1 y2) := by
    intro x1 y1 y2 hle hge
    simp [segEval, hle, hge]
  refine ⟨?_, hvert, ?_⟩
  · intro j x1 y1 x2 y2 hseg hv hcov hfirst
    have hx : x1 = x2 := by linarith [sub_eq_zero.mp hv]
    subst hx
    rcases hcov with ⟨hlo, hhi⟩
    rw [min_self] at hlo
    rw [max_self] at hhi
    apply find_y_first off ps j (x1, y1) (x1, y2)
    · exact hseg
    · intro i hi a b hab
      exact (segEval_eq_none_iff a b off).mpr (hfirst i hi a b hab)
    · exact hvert x1 y1 y2 hlo hhi
  · intro p q hne hcov
    rcases p with ⟨a, b⟩
    rcases q with ⟨c, d⟩
    rcases hcov with ⟨hlo, hhi⟩
    simp only at hne
    by_cases h : a > c
    · have hmin : a ⊓ c = c := by rw [min_def, if_neg (not_le.mpr h)]
      have hmax : a ⊔ c = a := by rw [max_def, if_neg (not_le.mpr h)]
      rw [hmin] at hlo
      rw [hmax] at hhi
      refine ⟨?_, ?_⟩
      · simp only [hmin, hmax]
        exact sub_ne_zero.mpr (ne_of_gt h)
      · simp only [segEval, hmin, hmax, if_pos h]
        rw [if_pos ⟨hlo, hhi⟩, if_neg (sub_ne_zero.mpr (ne_of_gt h))]
    · push_neg at h
      have hlt : a < c := lt_of_le_of_ne h hne
      have hmin : a ⊓ c = a := by rw [min_def, if_pos h]
      have hmax : a ⊔ c = c := by rw [max_def, if_pos h]
      rw [hmin] at hlo
      rw [hmax] at hhi
      refine ⟨?_, ?_⟩
      · simp only [hmin, hmax]
        exact sub_ne_zero.mpr (Ne.symm hne)
      · simp only [segEval, hmin, hmax, if_neg (not_lt.mpr h)]
        rw [if_pos ⟨hlo, hhi⟩, if_neg (sub_ne_zero.mpr (Ne.symm hne))]

/-- C9 witness: on the boundary `[(1,5),(1,2)]` the single segment is
vertical at offset `1` and the scan returns the lower elevation `2`. -/
theorem C9_vertical_min_witness :
    find_y_at_x 1 (flat [(1, 5), (1, 2)]) = .ok (some 2) := by
  have h := (C9_vertical_min [(1, 5), (1, 2)] 1).1 0 1 5 1 2 (by decide) (by decide) (by decide)
    (fun i hi => absurd hi (Nat.not_lt_zero i))
  norm_num at h
  exact h

/-- C2: the slope label for points A (`p1`, road side) and B (`p2`) reads
`Level` exactly when the elevations are equal, otherwise `1 : n` with
`n = run/rise` formatted to one decimal (so run 10 and rise 5 give
`1 : 2.0`), and the zone reads FILL/Embankment exactly when A's elevation
exceeds B's, CUT/Cutting otherwise. -/
theorem C2_classifySlope (p1 p2 : ℚ × ℚ) :
    (p1.2 = p2.2 → slope_text p1 p2 = ("Level").data)
  ∧ (p1.2 ≠ p2.2 →
      slope_text p1 p2 = ("1 : ").data ++ fmtQ1 (|p2.1 - p1.1| / |p2.2 - p1.2|))
  ∧ (zone_text p1 p2 = ("FILL\n(Embankment)").data ↔ p1.2 > p2.2)
  ∧ slope_text (0, 0) (10, 5) = ("1 : 2.0").data := by
  refine ⟨?_, ?_, ?_, by decide⟩
  · intro h
    simp [slope_text, h]
  · intro h
    have hne : |p2.2 - p1.2| ≠ 0 := abs_ne_zero.mpr (sub_ne_zero.mpr (Ne.symm h))
    simp [slope_text, hne]
  · simp only [zone_text]
    split_ifs with h
    · simp [h]
    · simp only [h, iff_false]
      decide

/-- C2 witness: equal elevations at offsets 0 and 5 give the `Level` label. -/
theorem C2_classifySlope_witness :
    slope_text (0, 1) (5, 1) = ("Level").data :=
  (C2_classifySlope (0, 1) (5, 1)).1 rfl

/-- C8: `find_layer` returns the first layer in file order whose type
matches, and `none` when no layer matches; in particular, with two layers
of the same type it returns the earlier one. -/
theorem C8_find_layer (name : Chars) (pre : List Layer) (l : Layer) (post : List Layer)
    (ls : List Layer) :
    (l.type = name → (∀ m ∈ pre, m.type ≠ name) → find_layer (pre ++ l :: post) name = some l)
  ∧ ((∀ m ∈ ls, m.type ≠ name) → find_layer ls name = none) := by
  constructor
  · intro hl
    induction pre with
    | nil =>
      intro
      simp [find_layer, hl]
    | cons p pre ih =>
      intro hpre
      have hp : p.type ≠ name := hpre p (List.mem_cons_self p pre)
      simp only [List.cons_append, find_layer]
      rw [if_neg hp]
      exact ih (fun m hm => hpre m (List.mem_cons_of_mem p hm))
  · induction ls with
    | nil =>
      intro
      rfl
    | cons p ls ih =>
      intro h
      simp only [find_layer]
      rw [if_neg (h p (List.mem_cons_self p ls))]
      exact ih (fun m hm => h m (List.mem_cons_of_mem p hm))

/-- C8 witness: with two `ASPHALT` layers the first one in file order is
returned. -/
theorem C8_find_layer_witness :
    find_layer [⟨("ASPHALT").data, ("red").data, [0, 0, 1, 1, 2, 2]⟩,
        ⟨("ASPHALT").data, ("blue").data, [5, 5, 6, 6, 7, 7]⟩] (("ASPHALT").data)
      = some ⟨("ASPHALT").data, ("red").data, [0, 0, 1, 1, 2, 2]⟩ := by
  have h := (C8_find_layer (("ASPHALT").data) []
      ⟨("ASPHALT").data, ("red").data, [0, 0, 1, 1, 2, 2]⟩
      [⟨("ASPHALT").data, ("blue").data, [5, 5, 6, 6, 7, 7]⟩] []).1 rfl
      (by intro m hm; simp at hm)
  simpa using h

/-- A line that is not a chainage directive leaves the chainage unchanged. -/
theorem processLine_chainage_eq (st : ParseState) (n : Nat) (raw : Chars)
    (h : startsWithC (("# CHAINAGE:").data) (pyStrip raw) = false) :
    (processLine st n raw).chainage = st.chainage := by
  simp only [processLine]
  split_ifs with h1 h2 h3
  · rfl
  · rw [h] at h2
    exact absurd h2 (by decide)
  · rfl
  · cases hsp : splitChar ',' (pyStrip raw) with
    | nil => rfl
    | cons t rest =>
      cases rest with
      | nil => rfl
      | cons c coords =>
        dsimp only
        split_ifs with h4
        · rfl
        · cases hm : coords.mapM parseFloat? with
          | none => rfl
          | some data => rfl

/-- Processing one line acts the same on the chainage and the layer list
whatever the accumulated diagnostics are, and extends the diagnostics
uniformly. -/
theorem processLine_transfer (n : Nat) (raw : Chars) (ch : Chars) (lay : List Layer)
    (d1 d2 : List Nat) :
    ∃ ch2 lay2, ∃ f : List Nat → List Nat,
      processLine ⟨ch, lay, d1⟩ n raw = ⟨ch2, lay2, f d1⟩ ∧
      processLine ⟨ch, lay, d2⟩ n raw = ⟨ch2, lay2, f d2⟩ := by
  simp only [processLine]
  split_ifs with h1 h2 h3
  · exact ⟨ch, lay, fun d => d, rfl, rfl⟩
  · exact ⟨pyStrip (afterFirstColon (pyStrip raw)), lay, fun d => d, rfl, rfl⟩
  · exact ⟨ch, lay, fun d => d, rfl, rfl⟩
  · cases hsp : splitChar ',' (pyStrip raw) with
    | nil => exact ⟨ch, lay, fun d => d, rfl, rfl⟩
    | cons t rest =>
      cases rest with
      | nil => exact ⟨ch, lay, fun d => d, rfl, rfl⟩
      | cons c coords =>
        dsimp only
        split_ifs with h4
        · exact ⟨ch, lay, fun d => d, rfl, rfl⟩
        · cases hm : coords.mapM parseFloat? with
          | none => exact ⟨ch, lay, fun d => d ++ [n], rfl, rfl⟩
          | some data => exact ⟨ch, lay ++ [⟨t, c, data⟩], fun d => d, rfl, rfl⟩

/-- The chainage and the layers produced by the line loop do not depend on
the diagnostics accumulated so far. -/
theorem parseFrom_diags_transfer :
    ∀ (ls : List Chars) (n : Nat) (ch : Chars) (lay : List Layer) (d1 d2 : List Nat),
      (parseFrom n ⟨ch, lay, d1⟩ ls).chainage = (parseFrom n ⟨ch, lay, d2⟩ ls).chainage ∧
      (parseFrom n ⟨ch, lay, d1⟩ ls).layers = (parseFrom n ⟨ch, lay, d2⟩ ls).layers := by
  intro ls
  induction ls with
  | nil => intro n ch lay d1 d2; exact ⟨rfl, rfl⟩
  | cons raw ls ih =>
    intro n ch lay d1 d2
    obtain ⟨ch2, lay2, f, he1, he2⟩ := processLine_transfer n raw ch lay d1 d2
    simp only [parseFrom, he1, he2]
    exact ih (n + 1) ch2 lay2 (f d1) (f d2)

/-- Lines that are not chainage directives leave the chainage unchanged
through the whole loop. -/
theorem parseFrom_chainage_nodir :
    ∀ (ls : List Chars) (n : Nat) (st : ParseState),
      (∀ l ∈ ls, startsWithC (("# CHAINAGE:").data) (pyStrip l) = false) →
      (parseFrom n st ls).chainage = st.chainage := by
  intro ls
  induction ls with
  | nil => intro n st _; rfl
  | cons raw ls ih =>
    intro n st h
    simp only [parseFrom]
    rw [ih (n + 1) (processLine st n raw) (fun l hl => h l (List.mem_cons_of_mem raw hl))]
    exact processLine_chainage_eq st n raw (h raw (List.mem_cons_self raw ls))

/-- C5 counterexample: on an input with no chainage directive the chainage
variable holds `CHAINAGE: Unknown` (the literal initialized at the top of
`load_road_section`), not `Unknown`. -/
theorem C5_counterexample :
    (parseLines []).chainage = ("CHAINAGE: Unknown").data ∧
    (parseLines []).chainage ≠ ("Unknown").data := by decide

/-- C5 (amended): the chainage defaults to `CHAINAGE: Unknown` when no
(stripped) line begins with `# CHAINAGE:`; every such directive line sets
the chainage to the trimmed remainder after the first colon; and the last
directive wins — a directive followed by only non-directive lines
determines the final chainage, silently overwriting earlier ones. -/
theorem C5_chainage (lines : List Chars) (st : ParseState) (n : Nat) (raw : Chars)
    (rest : List Chars) :
    ((∀ l ∈ lines, startsWithC (("# CHAINAGE:").data) (pyStrip l) = false) →
      (parseLines lines).chainage = ("CHAINAGE: Unknown").data)
  ∧ (startsWithC (("# CHAINAGE:").data) (pyStrip raw) = true →
      processLine st n raw = { st with chainage := pyStrip (afterFirstColon (pyStrip raw)) })
  ∧ (startsWithC (("# CHAINAGE:").data) (pyStrip raw) = true →
      (∀ l ∈ rest, startsWithC (("# CHAINAGE:").data) (pyStrip l) = false) →
      (parseFrom n st (raw :: rest)).chainage = pyStrip (afterFirstColon (pyStrip raw))) := by
  have hset : ∀ (st' : ParseState) (n' : Nat),
      startsWithC (("# CHAINAGE:").data) (pyStrip raw) = true →
      processLine st' n' raw
        = { st' with chainage := pyStrip (afterFirstColon (pyStrip raw)) } := by
    intro st' n' h
    have hne : pyStrip raw ≠ [] := by
      intro he
      rw [he] at h
      exact absurd h (by decide)
    simp only [processLine]
    rw [if_neg hne, if_pos h]
  refine ⟨?_, hset st n, ?_⟩
  · intro h
    exact parseFrom_chainage_nodir lines 1 initState h
  · intro h hrest
    simp only [parseFrom]
    rw [parseFrom_chainage_nodir rest (n + 1) _ hrest, hset st n h]

/-- C5 witness: two directives in one file — the later one overwrites the
earlier, and the value is the trimmed remainder after the first colon. -/
theorem C5_chainage_witness :
    (parseLines [("# CHAINAGE: 12+300").data, ("# CHAINAGE: 99+000").data]).chainage
      = ("99+000").data := by
  have h := (C5_chainage [] (processLine initState 1 (("# CHAINAGE: 12+300").data)) 2
      (("# CHAINAGE: 99+000").data) []).2.2 (by decide) (by intro l hl; simp at hl)
  rw [show pyStrip (afterFirstColon (pyStrip (("# CHAINAGE: 99+000").data)))
      = ("99+000").data from by decide] at h
  exact h

/-- A string starting with a multi-character pattern also starts with the
pattern's first character. -/
theorem startsWithC_longer (c : Char) (ps l : Chars) :
    startsWithC (c :: ps) l = true → startsWithC [c] l = true := by
  cases l with
  | nil => intro h; exact absurd h (by simp [startsWithC])
  | cons a as =>
    intro h
    simp only [startsWithC, Bool.and_eq_true] at h ⊢
    exact ⟨h.1, trivial⟩

/-- A data line (nonempty after stripping, not a comment) that is not a
chainage directive. -/
theorem not_hash_not_directive (raw : Chars)
    (hho : startsWithC (("#").data) (pyStrip raw) = false) :
    startsWithC (("# CHAINAGE:").data) (pyStrip raw) = false := by
  cases hd : startsWithC (("# CHAINAGE:").data) (pyStrip raw) with
  | false => rfl
  | true =>
    rw [show ("# CHAINAGE:").data = '#' :: (" CHAINAGE:").data from by decide] at hd
    have h2 := startsWithC_longer '#' ((" CHAINAGE:").data) (pyStrip raw) hd
    rw [show ['#'] = ("#").data from by decide] at h2
    rw [h2] at hho
    exact absurd hho (by decide)

/-- C6 counterexample: a data line with 7 comma-separated fields is skipped
with NO diagnostic — the `len(parts) < 8` check is a bare `continue`, so
nothing is printed for it, contradicting the claim that a diagnostic with
the line number and reason is emitted. -/
theorem C6_counterexample :
    (parseLines [("ASPHALT,gray,1,2,3,4,5").data]).diags = [] ∧
    (parseLines [("ASPHALT,gray,1,2,3,4,5").data]).layers = [] := by decide

/-- C6 (amended): a data line with fewer than 8 fields is skipped silently
(state unchanged — no layer and no diagnostic); a data line with at least
8 fields and a coordinate field that fails numeric parsing is skipped with
a diagnostic carrying its line number (the reason is the exception text);
in both cases the loop continues with the next line, and the layers
produced from the remaining lines are unaffected by the rejected line. -/
theorem C6_malformed (st : ParseState) (n : Nat) (raw : Chars) (rest : List Chars)
    (t c : Chars) (coords : List Chars) :
    (pyStrip raw ≠ [] → startsWithC (("#").data) (pyStrip raw) = false →
      (splitChar ',' (pyStrip raw)).length < 8 →
      processLine st n raw = st)
  ∧ (pyStrip raw ≠ [] → startsWithC (("#").data) (pyStrip raw) = false →
      splitChar ',' (pyStrip raw) = t :: c :: coords → 6 ≤ coords.length →
      coords.mapM parseFloat? = none →
      processLine st n raw = { st with diags := st.diags ++ [n] })
  ∧ parseFrom n st (raw :: rest) = parseFrom (n + 1) (processLine st n raw) rest
  ∧ ((processLine st n raw = st ∨
        processLine st n raw = { st with diags := st.diags ++ [n] }) →
      (parseFrom n st (raw :: rest)).layers = (parseFrom (n + 1) st rest).layers) := by
  refine ⟨?_, ?_, rfl, ?_⟩
  · intro hne hho hlen
    have hdir := not_hash_not_directive raw hho
    simp only [processLine]
    rw [if_neg hne, if_neg (by simp [hdir] : ¬ startsWithC (("# CHAINAGE:").data)
      (pyStrip raw) = true), if_neg (by simp [hho] : ¬ startsWithC (("#").data)
      (pyStrip raw) = true)]
    cases hsp : splitChar ',' (pyStrip raw) with
    | nil => rfl
    | cons t0 rest0 =>
      cases rest0 with
      | nil => rfl
      | cons c0 coords0 =>
        dsimp only
        rw [hsp] at hlen
        simp only [List.length_cons] at hlen
        rw [if_pos (by omega : coords0.length < 6)]
  · intro hne hho hsp hlen hmap
    have hdir := not_hash_not_directive raw hho
    simp only [processLine]
    rw [if_neg hne, if_neg (by simp [hdir] : ¬ startsWithC (("# CHAINAGE:").data)
      (pyStrip raw) = true), if_neg (by simp [hho] : ¬ startsWithC (("#").data)
      (pyStrip raw) = true), hsp]
    dsimp only
    rw [if_neg (by omega : ¬ coords.length < 6), hmap]
  · intro h
    obtain ⟨ch, lay, d⟩ := st
    simp only [parseFrom]
    rcases h with h | h <;> rw [h]
    exact (parseFrom_diags_transfer rest (n + 1) ch lay (d ++ [n]) d).2

/-- C6 witness: the 7-field line is dropped with the state unchanged, and an
8-field line with a non-numeric coordinate yields exactly a diagnostic for
its line number. -/
theorem C6_malformed_witness :
    processLine initState 1 (("ASPHALT,gray,1,2,3,4,5").data) = initState ∧
    processLine initState 3 (("ASPHALT,gray,1,2,3,4,5,x").data)
      = { initState with diags := [3] } := by
  constructor
  · exact (C6_malformed initState 1 (("ASPHALT,gray,1,2,3,4,5").data) [] [] []
      []).1 (by decide) (by decide) (by decide)
  · have h := (C6_malformed initState 3 (("ASPHALT,gray,1,2,3,4,5,x").data) []
      (("ASPHALT").data) (("gray").data)
      [("1").data, ("2").data, ("3").data, ("4").data, ("5").data, ("x").data]).2.1
      (by decide) (by decide) (by decide) (by decide) (by decide)
    exact h

/-- C7 counterexample: a 9-field record (7 coordinates, odd) is accepted by
the parser and a layer whose boundary list has odd length enters the layer
set, contradicting the claim that odd-length coordinate lists are rejected. -/
theorem C7_counterexample :
    (parseLines [("ASPHALT,gray,1,2,3,4,5,6,7").data]).layers
      = [⟨("ASPHALT").data, ("gray").data, [1, 2, 3, 4, 5, 6, 7]⟩] ∧
    ((parseLines [("ASPHALT,gray,1,2,3,4,5,6,7").data]).layers.map
      (fun l => l.data.length % 2)) = [1] := by decide

/-- C7 (amended): the parser checks only the field count (at least 8) and
the numeric parsing of each coordinate field; the parity of the coordinate
list is never examined, so any such record — including one with an odd
coordinate count — is appended to the layer set as is. -/
theorem C7_odd_accepted (st : ParseState) (n : Nat) (raw : Chars) (t c : Chars)
    (coords : List Chars) (data : List ℚ) :
    pyStrip raw ≠ [] →
    startsWithC (("#").data) (pyStrip raw) = false →
    splitChar ',' (pyStrip raw) = t :: c :: coords →
    6 ≤ coords.length →
    coords.mapM parseFloat? = some data →
    processLine st n raw = { st with layers := st.layers ++ [⟨t, c, data⟩] } := by
  intro hne hho hsp hlen hmap
  have hdir := not_hash_not_directive raw hho
  simp only [processLine]
  rw [if_neg hne, if_neg (by simp [hdir] : ¬ startsWithC (("# CHAINAGE:").data)
    (pyStrip raw) = true), if_neg (by simp [hho] : ¬ startsWithC (("#").data)
    (pyStrip raw) = true), hsp]
  dsimp only
  rw [if_neg (by omega : ¬ coords.length < 6), hmap]

/-- C7 witness: the 9-field record with 7 coordinates is appended as a
layer with an odd-length boundary list. -/
theorem C7_odd_accepted_witness :
    processLine initState 1 (("ASPHALT,gray,1,2,3,4,5,6,7").data)
      = { initState with
          layers := [⟨("ASPHALT").data, ("gray").data, [1, 2, 3, 4, 5, 6, 7]⟩] } := by
  have h := C7_odd_accepted initState 1 (("ASPHALT,gray,1,2,3,4,5,6,7").data)
    (("ASPHALT").data) (("gray").data)
    [("1").data, ("2").data, ("3").data, ("4").data, ("5").data, ("6").data, ("7").data]
    [1, 2, 3, 4, 5, 6, 7] (by decide) (by decide) (by decide) (by decide) (by decide)
  exact h

/-- Annotations produced by the median step are median barrier labels. -/
theorem medianPart_mem (m : Option Layer) (md : List Ann) (h : medianPart m = .ok md) :
    ∀ x ∈ md, ∃ o e2, x = .pointLabel o e2 (("Median\nBarrier").data) 15 (("s").data) := by
  cases m with
  | none =>
    injection h with h
    subst h
    intro x hx
    simp at hx
  | some mv =>
    simp only [medianPart] at h
    split at h
    · injection h with h
      subst h
      intro x hx
      rw [List.mem_singleton] at hx
      subst hx
      exact ⟨_, _, rfl⟩
    · exact absurd h (by simp)

/-- Annotations produced by the slope step are slope labels. -/
theorem slopePart_mem (s t : Option Layer) (sl : List Ann) (h : slopePart s t = .ok sl) :
    ∀ x ∈ sl, ∃ p1 p2 rt zt, x = .slopeLabel p1 p2 rt zt := by
  cases s with
  | none =>
    injection h with h
    subst h
    intro x hx
    simp at hx
  | some sv =>
    cases t with
    | none =>
      injection h with h
      subst h
      intro x hx
      simp at hx
    | some tv =>
      simp only [slopePart] at h
      split at h
      · injection h with h
        subst h
        intro x hx
        rw [List.mem_cons, List.mem_singleton] at hx
        rcases hx with hx | hx <;> (subst hx; exact ⟨_, _, _, _, rfl⟩)
      · exact absurd h (by simp)

/-- C3: topology precedence of the annotation builder — an `ASPHALT` layer
forces the simple branch and the left/right asphalt lookups are ignored;
otherwise `ASPHALT_L` and `ASPHALT_R` together force the divided branch;
otherwise no pavement annotations are produced, and what remains (emitted
in every branch, independently of the pavement decision) are exactly the
median label and the slope labels. -/
theorem C3_topology (a l r s m t : Option Layer) :
    (a.isSome → annsFrom a l r s m t = annsFrom a none none s m t)
  ∧ (∀ lv rv, a = none → l = some lv → r = some rv →
      annsFrom a l r s m t =
        (match dividedPav lv rv with
         | .error e => .error e
         | .ok p =>
           match medianPart m with
           | .error e => .error e
           | .ok md =>
             match slopePart s t with
             | .error e => .error e
             | .ok sl => .ok (p ++ md ++ sl)))
  ∧ (a = none → (l = none ∨ r = none) →
      annsFrom a l r s m t =
        (match medianPart m with
         | .error e => .error e
         | .ok md =>
           match slopePart s t with
           | .error e => .error e
           | .ok sl => .ok (md ++ sl)))
  ∧ (∀ anns, a = none → (l = none ∨ r = none) → annsFrom a l r s m t = .ok anns →
      ∀ x ∈ anns,
        (∃ o e2, x = .pointLabel o e2 (("Median\nBarrier").data) 15 (("s").data)) ∨
        (∃ p1 p2 rt zt, x = .slopeLabel p1 p2 rt zt)) := by
  have hdecomp : ∀ (l r : Option Layer), (l = none ∨ r = none) →
      annsFrom none l r s m t =
        (match medianPart m with
         | .error e => .error e
         | .ok md =>
           match slopePart s t with
           | .error e => .error e
           | .ok sl => .ok (md ++ sl)) := by
    intro l r hlr
    have hpav : (match l, r with
        | some lv, some rv => dividedPav lv rv
        | _, _ => (.ok [] : Except Chars (List Ann))) = .ok [] := by
      rcases hlr with h | h
      · subst h; rfl
      · subst h; cases l <;> rfl
    simp only [annsFrom, hpav]
    cases hmd : medianPart m with
    | error e => rfl
    | ok md =>
      cases hsl : slopePart s t with
      | error e => rfl
      | ok sl => simp
  refine ⟨?_, ?_, fun ha hlr => ha ▸ hdecomp l r hlr, ?_⟩
  · intro ha
    cases a with
    | none => simp at ha
    | some x => rfl
  · intro lv rv ha hl hr
    subst ha
    subst hl
    subst hr
    rfl
  · intro anns ha hlr heq x hx
    subst ha
    rw [hdecomp l r hlr] at heq
    cases hmd : medianPart m with
    | error e => rw [hmd] at heq; exact absurd heq (by simp)
    | ok md =>
      rw [hmd] at heq
      cases hsl : slopePart s t with
      | error e => rw [hsl] at heq; exact absurd heq (by simp)
      | ok sl =>
        rw [hsl] at heq
        injection heq with heq
        subst heq
        rcases List.mem_append.mp hx with hx | hx
        · exact Or.inl (medianPart_mem m md hmd x hx)
        · exact Or.inr (slopePart_mem s t sl hsl x hx)

/-- C3 witness: with an `ASPHALT` layer present the left/right asphalt
lookups do not influence the result. -/
theorem C3_topology_witness :
    annsFrom (some ⟨("ASPHALT").data, ("gray").data, [-3, 0, 3, 0, 0, -1]⟩)
        (some ⟨("ASPHALT_L").data, ("gray").data, [-9, 0, -1, 0, -1, -1, -9, -1]⟩)
        (some ⟨("ASPHALT_R").data, ("gray").data, [1, 0, 9, 0, 9, -1, 1, -1]⟩)
        none none none
      = annsFrom (some ⟨("ASPHALT").data, ("gray").data, [-3, 0, 3, 0, 0, -1]⟩)
        none none none none none :=
  (C3_topology (some ⟨("ASPHALT").data, ("gray").data, [-3, 0, 3, 0, 0, -1]⟩)
    (some ⟨("ASPHALT_L").data, ("gray").data, [-9, 0, -1, 0, -1, -1, -9, -1]⟩)
    (some ⟨("ASPHALT_R").data, ("gray").data, [1, 0, 9, 0, 9, -1, 1, -1]⟩)
    none none none).1 rfl

/-- C4 counterexample: the claimed input record has a 2-point boundary,
i.e. only 6 comma-separated fields, so the parser's 8-field minimum
rejects it — the resulting layer set is empty (size 0, not 1) and no
annotation at all is produced. -/
theorem C4_counterexample :
    (parseLines [("ASPHALT,gray,-3,0,3,0").data]).layers = [] ∧
    buildAnns (parseLines [("ASPHALT,gray,-3,0,3,0").data]).layers = .ok [] := by decide

/-- C4 (amended): an input with one `ASPHALT` record whose boundary starts
with `(-3,0)`, `(3,0)` and satisfies the 8-field minimum with a third
point (here `(0,-1)`), and no TERRAIN, SUBBASE or MEDIAN records, yields a
layer set of size 1, a centerline point label at elevation 0, two
edge-of-pavement labels at `(-3,0)` and `(3,0)`, and one dimension line at
elevation 1 labeled `Width: 6.00m` — and nothing else: no slope labels and
no median label. -/
theorem C4_end_to_end :
    (parseLines [("ASPHALT,gray,-3,0,3,0,0,-1").data]).layers.length = 1 ∧
    buildAnns (parseLines [("ASPHALT,gray,-3,0,3,0,0,-1").data]).layers
      = .ok [.pointLabel 0 0 (centerlineText 0) 30 (("s").data),
             .pointLabel (-3) 0 (epText (-3) 0) 30 (("s").data),
             .pointLabel 3 0 (epText 3 0) 30 (("s").data),
             .dimLine 1 (-3) 3 (widthText 6)] ∧
    centerlineText 0 = ("Centerline\n(Elev: 0.00m)").data ∧
    epText (-3) 0 = ("E.P.\n(-3.00, 0.00)").data ∧
    epText 3 0 = ("E.P.\n(3.00, 0.00)").data ∧
    widthText 6 = ("Width: 6.00m").data := by decide

/-- C10: in the simple topology, when interpolation at offset 0 on the
asphalt boundary yields `None`, only the centerline label is guarded; the
width dimension still computes `cl_elev + 1.0` on the absent value, so the
whole load fails with an exception (a `TypeError` when the boundary has at
least four coordinates) instead of merely omitting the
centerline-dependent annotations. -/
theorem C10_absent_centerline (layers : List Layer) (a : Layer)
    (hfind : find_layer layers (("ASPHALT").data) = some a)
    (hcl : find_y_at_x 0 a.data = .ok none) :
    (∃ e, buildAnns layers = .error e) ∧
    (∀ x0 y0 x1 y1 rest2, a.data = x0 :: y0 :: x1 :: y1 :: rest2 →
      buildAnns layers = .error (("TypeError").data)) := by
  have key : ∀ e, simplePav a = .error e → buildAnns layers = .error e := by
    intro e he
    simp only [buildAnns, hfind, annsFrom]
    rw [he]
  have hsp : simplePav a = .error (("TypeError").data) ∨
      simplePav a = .error (("IndexError").data) := by
    simp only [simplePav, hcl]
    rcases hd : a.data with _ | ⟨x0, _ | ⟨y0, _ | ⟨x1, _ | ⟨y1, rest2⟩⟩⟩⟩
    · right; rfl
    · right; rfl
    · right; rfl
    · right; rfl
    · left; rfl
  constructor
  · rcases hsp with h | h
    · exact ⟨_, key _ h⟩
    · exact ⟨_, key _ h⟩
  · intro x0 y0 x1 y1 rest2 hd
    apply key
    rw [hd] at hcl
    simp only [simplePav, hd, hcl]

/-- C10 witness: an asphalt boundary lying entirely at offsets 10..30 does
not cover offset 0, and the whole build fails with the `TypeError` raised
by `cl_elev + 1.0`. -/
theorem C10_absent_centerline_witness :
    buildAnns [⟨("ASPHALT").data, ("gray").data, [10, 0, 20, 0, 30, 0]⟩]
      = .error (("TypeError").data) :=
  (C10_absent_centerline [⟨("ASPHALT").data, ("gray").data, [10, 0, 20, 0, 30, 0]⟩]
    ⟨("ASPHALT").data, ("gray").data, [10, 0, 20, 0, 30, 0]⟩
    (by decide) (by decide)).2 10 0 20 0 [30, 0] rfl
